import Mathlib

/-
Verification of the Story Scale estimation engine (src/app.py).

The pure estimation logic of the app is embedded shallowly:
* Python floats are modelled as exact rationals (ℚ); Python ints as ℤ.
* Python abs is pyAbs / pyAbsZ, Python round (banker's rounding) is pyRound,
  Python builtin min with a key function is pyMinAux (first minimum wins).
* Python dicts from role names to votes are association lists built in
  insertion order (dictInsert overwrites an existing key).
* Code that can raise (division by zero, int() on a malformed string,
  tuple-unpacking of a split) returns Option, with none for the raised error.
-/

set_option maxRecDepth 10000

/-! ## Basic Python-modelling helpers -/

/-- Python abs on a float value. -/
def pyAbs (q : ℚ) : ℚ := if q < 0 then -q else q

/-- Python abs on an int value. -/
def pyAbsZ (z : ℤ) : ℤ := if z < 0 then -z else z

/-- Python str.lower for the ASCII strings used by the app. -/
def pyLower (s : String) : String := String.mk (s.toList.map Char.toLower)

/-- Python min(list, key=...) keeps the first element attaining the minimal
key: the accumulator is replaced only on a strictly smaller key. -/
def pyMinAux (key : ℤ → ℚ) (acc : ℤ) : List ℤ → ℤ
  | [] => acc
  | v :: rest => pyMinAux key (if key v < key acc then v else acc) rest

/-- Does the needle occur at the head of the haystack? -/
def startsWithList : List Char → List Char → Bool
  | [], _ => true
  | _ :: _, [] => false
  | c :: cs, h :: hs => (c == h) && startsWithList cs hs

/-- Substring containment on character lists (Python `needle in hay`). -/
def containsList : List Char → List Char → Bool
  | [], needle => needle.isEmpty
  | h :: t, needle => startsWithList needle (h :: t) || containsList t needle

/-- Python `needle in hay` on strings. -/
def strContains (hay needle : String) : Bool := containsList hay.toList needle.toList

/-- Python str.strip: drop whitespace from both ends. -/
def pyStripChars (l : List Char) : List Char :=
  ((l.dropWhile Char.isWhitespace).reverse.dropWhile Char.isWhitespace).reverse

/-- Python str.split(sep) for a one-character separator: "".split(sep) is
[""], and separators at the ends produce empty segments. -/
def splitOnChar (sep : Char) : List Char → List (List Char)
  | [] => [[]]
  | c :: rest =>
    let r := splitOnChar sep rest
    if c == sep then [] :: r
    else
      match r with
      | [] => [[c]]
      | h :: t => (c :: h) :: t

/-- Valid tail of a Python int literal after its first digit: digits,
optionally separated by single underscores. -/
def decimalDigitsOk : List Char → Bool
  | [] => true
  | '_' :: [] => false
  | '_' :: d :: rest => d.isDigit && decimalDigitsOk rest
  | c :: rest => c.isDigit && decimalDigitsOk rest

/-- A nonempty digit sequence in Python int syntax (first char must be a
digit, then decimalDigitsOk). -/
def digitsHead : List Char → Bool
  | [] => false
  | c :: rest => c.isDigit && decimalDigitsOk rest

/-- Numeric value of a digit character. -/
def digitVal (c : Char) : ℤ := (c.toNat : ℤ) - 48

/-- Value of a digit sequence, ignoring underscores. -/
def digitsValue (l : List Char) : ℤ :=
  l.foldl (fun acc c => if c == '_' then acc else acc * 10 + digitVal c) 0

/-- Python int(s) on a string: strips whitespace, optional sign, then a
digit sequence; none models the ValueError raised otherwise. -/
def pyInt (l : List Char) : Option ℤ :=
  match pyStripChars l with
  | '+' :: rest => if digitsHead rest then some (digitsValue rest) else none
  | '-' :: rest => if digitsHead rest then some (-(digitsValue rest)) else none
  | s => if digitsHead s then some (digitsValue s) else none

/-- Python dict assignment d[k] = v on an association list: overwrite the
existing entry for k, or append a new one. -/
def dictInsert (d : List (String × ℤ)) (k : String) (v : ℤ) : List (String × ℤ) :=
  if d.any (fun p => p.1 == k) then
    d.map (fun p => if p.1 == k then (p.1, v) else p)
  else d ++ [(k, v)]

/-- Round half to even on ℚ, the rounding used by Python round. -/
def roundHalfEven (x : ℚ) : ℤ :=
  let f := Int.floor x
  let r := x - (f : ℚ)
  if r < 1/2 then f
  else if 1/2 < r then f + 1
  else if Even f then f else f + 1

/-- Python round(x, nd) for nd decimal digits. -/
def pyRound (x : ℚ) (nd : ℕ) : ℚ := ((roundHalfEven (x * 10 ^ nd) : ℤ) : ℚ) / 10 ^ nd

/-- statistics.mean on a list of int votes, as an exact rational. -/
def mean (votes : List ℤ) : ℚ := ((votes.sum : ℤ) : ℚ) / (votes.length : ℚ)

/-! ## The estimation engine (src/app.py) -/

/-- FIB ladder from src/app.py line 53. -/
def FIB : List ℤ := [1, 2, 3, 5, 8, 13, 21, 40]

/-- round_to_fib from src/app.py lines 115-116:
min(FIB, key=lambda v: abs(v - x)). -/
def round_to_fib (x : ℚ) : ℤ :=
  match FIB with
  | [] => 0
  | v :: rest => pyMinAux (fun f => pyAbs ((f : ℚ) - x)) v rest

/-- get_complexity from src/app.py lines 118-121. -/
def get_complexity (sp : ℤ) : String :=
  if sp ≤ 3 then "Low"
  else if sp ≤ 8 then "Medium"
  else "High"

def payment_keywords : List String :=
  ["upi", "payment", "checkout", "card", "stripe", "razorpay", "paytm"]

def auth_keywords : List String :=
  ["login", "signin", "sign in", "oauth", "google", "auth", "password", "otp", "2fa", "two-factor"]

def analytics_keywords : List String :=
  ["analytics", "dashboard", "filters", "export", "report", "chart", "metrics"]

/-- keyword_category from src/app.py lines 105-113. -/
def keyword_category (s : String) : String :=
  let s_low := pyLower s
  if payment_keywords.any (fun k => strContains s_low k) then "payment"
  else if auth_keywords.any (fun k => strContains s_low k) then "auth"
  else if analytics_keywords.any (fun k => strContains s_low k) then "analytics"
  else "default"

/-- sprint_weeks from src/app.py lines 135-137; none models the
ZeroDivisionError raised by sp / velocity when velocity is zero. -/
def sprint_weeks (sp velocity : ℤ) : Option ℤ :=
  if velocity = 0 then none
  else some (max 1 (Int.ceil (((sp : ℚ) / (velocity : ℚ)) * 2)))

def high_risk : String × String := ("🚨 High Risk — Story exceeds sprint capacity", "error")

def medium_risk : String × String := ("⚠️ Medium Risk — Story fills >75% of sprint capacity", "warning")

def low_risk : String × String := ("✅ Low Risk — Story fits well within sprint", "success")

/-- sprint_risk from src/app.py lines 139-146; none models the
ZeroDivisionError raised by sp / velocity when velocity is zero. -/
def sprint_risk (sp velocity : ℤ) : Option (String × String) :=
  if velocity = 0 then none
  else
    if 1 < (sp : ℚ) / (velocity : ℚ) then some high_risk
    else if 3/4 < (sp : ℚ) / (velocity : ℚ) then some medium_risk
    else some low_risk

/-- One entry of ROLE_RULES from src/app.py lines 55-76. -/
structure RoleRule where
  roles : List String
  reasons : List String
  tasks : List String
deriving DecidableEq

/-- ROLE_RULES.get(cat, ROLE_RULES['default']) from src/app.py. -/
def role_rules (cat : String) : RoleRule :=
  if cat = "payment" then
    { roles := ["Backend Developer", "Frontend Developer", "QA Engineer", "Security/DevOps"],
      reasons := ["Integration with 3rd party payment APIs", "Validation & reconciliation",
                  "Security + encryption", "Callback handling"],
      tasks := ["Setup payment provider credentials", "Implement payment API endpoints",
                "UI payment flow", "Add payment tests"] }
  else if cat = "auth" then
    { roles := ["Frontend Developer", "Backend Developer", "QA Engineer"],
      reasons := ["Authentication flow", "Token handling", "Session management", "Redirects"],
      tasks := ["Create auth endpoints", "Implement login UI", "Token storage & refresh",
                "Test auth flows"] }
  else if cat = "analytics" then
    { roles := ["Backend Developer", "Data Engineer", "Frontend Developer", "QA Engineer"],
      reasons := ["Data aggregation", "Filters and exports", "Charting library",
                  "Performance optimization"],
      tasks := ["Create analytics API", "Design DB aggregates", "Implement frontend charts",
                "Add analytics tests"] }
  else
    { roles := ["Frontend Developer", "Backend Developer", "QA Engineer"],
      reasons := ["Feature implementation", "Integration points", "Testing"],
      tasks := ["Define API contract", "Implement UI", "Create tests"] }

/-- generate_backlog from src/app.py lines 148-178. -/
def generate_backlog (cat : String) : List (String × String) :=
  if cat = "payment" then
    [("Epic", "Online Payments Integration"),
     ("Feature", "Payment Gateway Setup (Razorpay/Stripe)"),
     ("Task", "Create backend endpoints for transactions"),
     ("Subtask", "Test callbacks and failure recovery"),
     ("Task", "Implement UI for payment confirmation")]
  else if cat = "auth" then
    [("Epic", "User Authentication Module"),
     ("Feature", "OAuth2 and Email Login"),
     ("Task", "Implement Google OAuth flow"),
     ("Subtask", "Store & refresh tokens securely"),
     ("Task", "Password Reset and OTP")]
  else if cat = "analytics" then
    [("Epic", "Analytics Dashboard"),
     ("Feature", "Backend Aggregation and API"),
     ("Task", "Create dashboard endpoints"),
     ("Subtask", "Add chart filters and export")]
  else
    [("Epic", "Core Product Enhancement"),
     ("Feature", "Add new modular functionality"),
     ("Task", "Implement UI + API"),
     ("Subtask", "Write tests and documentation")]

/-- Python str.title for the single lowercase words it is applied to
(the category names). -/
def pyTitleWord (s : String) : String :=
  match s.toList with
  | [] => ""
  | c :: t => String.mk (c.toUpper :: t.map Char.toLower)

/-- factual_reasons from src/app.py lines 123-133. -/
def factual_reasons (sp : ℤ) (roles : List String) (category : String) : List String :=
  [if sp ≤ 3 then "Small scope — minimal dependencies, mostly UI."
   else if sp ≤ 8 then "Moderate scope — few integrations, shared across roles."
   else "High scope — multiple subsystems and cross-role dependencies.",
   "Involves " ++ toString roles.length ++ " key roles (" ++
     String.intercalate ", " (roles.take 3) ++ "...).",
   "Category identified: " ++ pyTitleWord category ++
     ". Effort likely increased due to backend integrations."]

/-- Result bundle of predict_and_explain (src/app.py lines 192-207). The
role_inner_steps field is constant data and is omitted. -/
structure EstimationResult where
  predicted_raw : ℚ
  story_points : ℤ
  complexity : String
  reasons : List String
  roles : List String
  recommended_tasks : List String
  sprint_weeks : ℤ
  sprint_suggestion : String
  backlog : List (String × String)
  category : String
  risk_msg : String
  risk_level : String
  capacity_used : ℚ
deriving DecidableEq

/-- predict_and_explain from src/app.py lines 180-207. The external model
prediction float(model.predict(vec)[0]) is passed in as raw_pred; none
models the ZeroDivisionError propagated when team_velocity is zero. -/
def predict_and_explain (raw_pred : ℚ) (text : String) (team_velocity : ℤ) :
    Option EstimationResult :=
  let rounded_sp := round_to_fib raw_pred
  let complexity := get_complexity rounded_sp
  let cat := keyword_category text
  let rules := role_rules cat
  let factual := factual_reasons rounded_sp rules.roles cat
  let backlog := generate_backlog cat
  match sprint_weeks rounded_sp team_velocity, sprint_risk rounded_sp team_velocity with
  | some duration, some risk =>
    some
      { predicted_raw := raw_pred
        story_points := rounded_sp
        complexity := complexity
        reasons := factual
        roles := rules.roles
        recommended_tasks := rules.tasks
        sprint_weeks := duration
        sprint_suggestion := "Expected to complete in " ++ toString duration ++
          " week(s) (velocity=" ++ toString team_velocity ++ ")"
        backlog := backlog
        category := cat
        risk_msg := risk.1
        risk_level := risk.2
        capacity_used := min (pyRound (((rounded_sp : ℚ) / (team_velocity : ℚ)) * 100) 1) 100 }
  | _, _ => none

/-- Result of finalize_by_team_votes (src/app.py lines 209-233). -/
structure ConsensusResult where
  ai_suggestion : ℤ
  team_avg : Option ℚ
  team_rounded : Option ℤ
  final_story_points : ℤ
  rationale : String
deriving DecidableEq

/-- finalize_by_team_votes from src/app.py lines 209-233. -/
def finalize_by_team_votes (ai_sp : ℤ) (team_votes : List (String × ℤ)) : ConsensusResult :=
  let votes := team_votes.map Prod.snd
  if votes.length = 0 then
    { ai_suggestion := ai_sp
      team_avg := none
      team_rounded := none
      final_story_points := ai_sp
      rationale := "No team votes provided — AI suggestion used." }
  else
    let avg_vote := mean votes
    let team_rounded := round_to_fib avg_vote
    if pyAbsZ (team_rounded - ai_sp) ≤ 2 then
      { ai_suggestion := ai_sp
        team_avg := some (pyRound avg_vote 2)
        team_rounded := some team_rounded
        final_story_points := ai_sp
        rationale := "AI estimate accepted (team consensus within ±2)." }
    else
      { ai_suggestion := ai_sp
        team_avg := some (pyRound avg_vote 2)
        team_rounded := some team_rounded
        final_story_points := team_rounded
        rationale := "Scrum Master accepted team consensus (rounded)." }

/-- The vote-parsing loop in the Finalize button handler (src/app.py lines
315-323), one comma-separated segment at a time: a segment without a colon
is skipped; a segment with a colon is split on every colon, and the whole
parse fails (none, modelling the caught exception that discards the dict)
unless that split has exactly two fields and the second is a valid int. -/
def parse_votes_segments : List (String × ℤ) → List (List Char) → Option (List (String × ℤ))
  | acc, [] => some acc
  | acc, part :: rest =>
    if part.contains ':' then
      match splitOnChar ':' part with
      | [k, v] =>
        match pyInt (pyStripChars v) with
        | some n => parse_votes_segments (dictInsert acc (String.mk (pyStripChars k)) n) rest
        | none => none
      | _ => none
    else parse_votes_segments acc rest

/-- The whole vote-parsing block (src/app.py lines 315-323):
votes_raw.split(",") then the per-segment loop. -/
def parse_votes (votes_raw : String) : Option (List (String × ℤ)) :=
  parse_votes_segments [] (splitOnChar ',' votes_raw.toList)


/-! ## Properties of the Python min scan -/

theorem pyAbs_eq_abs (q : ℚ) : pyAbs q = |q| := by
  rw [pyAbs]
  split_ifs with h
  · exact (abs_of_neg h).symm
  · exact (abs_of_nonneg (le_of_not_lt h)).symm

theorem pyAbsZ_eq_abs (z : ℤ) : pyAbsZ z = |z| := by
  rw [pyAbsZ]
  split_ifs with h
  · exact (abs_of_neg h).symm
  · exact (abs_of_nonneg (le_of_not_lt h)).symm

theorem pyMinAux_eq_or_mem (key : ℤ → ℚ) (l : List ℤ) :
    ∀ acc, pyMinAux key acc l = acc ∨ pyMinAux key acc l ∈ l := by
  induction l with
  | nil => intro acc; exact Or.inl rfl
  | cons v rest ih =>
    intro acc
    simp only [pyMinAux]
    by_cases hc : key v < key acc
    · rw [if_pos hc]
      rcases ih v with h | h
      · exact Or.inr (by rw [h]; exact List.mem_cons_self v rest)
      · exact Or.inr (List.mem_cons_of_mem v h)
    · rw [if_neg hc]
      rcases ih acc with h | h
      · exact Or.inl h
      · exact Or.inr (List.mem_cons_of_mem v h)

theorem pyMinAux_le (key : ℤ → ℚ) (l : List ℤ) :
    ∀ acc, key (pyMinAux key acc l) ≤ key acc ∧
      ∀ v ∈ l, key (pyMinAux key acc l) ≤ key v := by
  induction l with
  | nil =>
    intro acc
    exact ⟨le_refl _, by intro v hv; exact absurd hv (List.not_mem_nil v)⟩
  | cons v rest ih =>
    intro acc
    simp only [pyMinAux]
    by_cases hc : key v < key acc
    · rw [if_pos hc]
      obtain ⟨h1, h2⟩ := ih v
      refine ⟨le_trans h1 (le_of_lt hc), ?_⟩
      intro u hu
      rcases List.mem_cons.mp hu with rfl | hu2
      · exact h1
      · exact h2 u hu2
    · rw [if_neg hc]
      obtain ⟨h1, h2⟩ := ih acc
      refine ⟨h1, ?_⟩
      intro u hu
      rcases List.mem_cons.mp hu with rfl | hu2
      · exact le_trans h1 (le_of_not_lt hc)
      · exact h2 u hu2

theorem pyMinAux_eq_or_lt (key : ℤ → ℚ) (l : List ℤ) :
    ∀ acc, pyMinAux key acc l = acc ∨
      (pyMinAux key acc l ∈ l ∧ key (pyMinAux key acc l) < key acc) := by
  induction l with
  | nil => intro acc; exact Or.inl rfl
  | cons v rest ih =>
    intro acc
    simp only [pyMinAux]
    by_cases hc : key v < key acc
    · rw [if_pos hc]
      rcases ih v with h | ⟨hm, hlt⟩
      · exact Or.inr ⟨by rw [h]; exact List.mem_cons_self v rest, by rw [h]; exact hc⟩
      · exact Or.inr ⟨List.mem_cons_of_mem v hm, lt_trans hlt hc⟩
    · rw [if_neg hc]
      rcases ih acc with h | ⟨hm, hlt⟩
      · exact Or.inl h
      · exact Or.inr ⟨List.mem_cons_of_mem v hm, hlt⟩

theorem pyMinAux_first (key : ℤ → ℚ) (l : List ℤ) :
    ∀ acc, List.Pairwise (· < ·) (acc :: l) →
      ∀ u, u ∈ acc :: l → key u = key (pyMinAux key acc l) →
        pyMinAux key acc l ≤ u := by
  induction l with
  | nil =>
    intro acc _ u hu _
    simp only [pyMinAux]
    have h : u = acc := by simpa using hu
    rw [h]
  | cons v rest ih =>
    intro acc hp u hu hk
    have hav : acc < v := (List.pairwise_cons.mp hp).1 v (List.mem_cons_self v rest)
    have hpr : List.Pairwise (· < ·) (v :: rest) := (List.pairwise_cons.mp hp).2
    have haccrest : ∀ w ∈ rest, acc < w :=
      fun w hw => (List.pairwise_cons.mp hp).1 w (List.mem_cons_of_mem v hw)
    simp only [pyMinAux] at hk ⊢
    by_cases hc : key v < key acc
    · rw [if_pos hc] at hk ⊢
      rcases List.mem_cons.mp hu with rfl | hu2
      · have h1 : key (pyMinAux key v rest) ≤ key v := (pyMinAux_le key rest v).1
        have h2 := lt_of_le_of_lt h1 hc
        rw [← hk] at h2
        exact absurd h2 (lt_irrefl _)
      · exact ih v hpr u hu2 hk
    · rw [if_neg hc] at hk ⊢
      have hpacc : List.Pairwise (· < ·) (acc :: rest) :=
        List.pairwise_cons.mpr ⟨haccrest, (List.pairwise_cons.mp hpr).2⟩
      rcases List.mem_cons.mp hu with rfl | hu2
      · exact ih _ hpacc _ (List.mem_cons_self _ _) hk
      · rcases List.mem_cons.mp hu2 with rfl | hu3
        · rcases pyMinAux_eq_or_lt key rest acc with h | ⟨_, hlt⟩
          · rw [h]; exact le_of_lt hav
          · have h2 := le_of_not_lt hc
            rw [hk] at h2
            exact absurd (lt_of_lt_of_le hlt h2) (lt_irrefl _)
        · exact ih _ hpacc _ (List.mem_cons_of_mem _ hu3) hk

/-! ## Properties of round_to_fib -/

theorem round_to_fib_eq (x : ℚ) :
    round_to_fib x = pyMinAux (fun f => pyAbs ((f : ℚ) - x)) 1 [2, 3, 5, 8, 13, 21, 40] := rfl

theorem round_to_fib_mem (x : ℚ) : round_to_fib x ∈ FIB := by
  rw [round_to_fib_eq]
  rcases pyMinAux_eq_or_mem (fun f => pyAbs ((f : ℚ) - x)) [2, 3, 5, 8, 13, 21, 40] 1 with h | h
  · rw [h]; decide
  · exact List.mem_cons_of_mem 1 h

theorem round_to_fib_min (x : ℚ) :
    ∀ f ∈ FIB, |((round_to_fib x : ℤ) : ℚ) - x| ≤ |((f : ℤ) : ℚ) - x| := by
  intro f hf
  obtain ⟨h1, h2⟩ := pyMinAux_le (fun g => pyAbs ((g : ℚ) - x)) [2, 3, 5, 8, 13, 21, 40] 1
  have hf2 : f = 1 ∨ f ∈ [2, 3, 5, 8, 13, 21, 40] := List.mem_cons.mp hf
  rw [round_to_fib_eq]
  rcases hf2 with rfl | hmem
  · simpa [pyAbs_eq_abs] using h1
  · simpa [pyAbs_eq_abs] using h2 f hmem

/-- Claim C5: for every x (including values below 1 or above 40),
round_to_fib x is a member of the fixed ladder FIB that minimizes the
distance to x, never failing; consequently every ladder member f is a
fixed point: round_to_fib f = f. -/
theorem round_to_fib_total_min (x : ℚ) :
    round_to_fib x ∈ FIB ∧
    (∀ f ∈ FIB, |((round_to_fib x : ℤ) : ℚ) - x| ≤ |((f : ℤ) : ℚ) - x|) ∧
    (∀ f ∈ FIB, round_to_fib ((f : ℤ) : ℚ) = f) := by
  refine ⟨round_to_fib_mem x, round_to_fib_min x, ?_⟩
  intro f hf
  have h0 := round_to_fib_min ((f : ℤ) : ℚ) f hf
  rw [sub_self, abs_zero] at h0
  have h1 : ((round_to_fib ((f : ℤ) : ℚ) : ℤ) : ℚ) - ((f : ℤ) : ℚ) = 0 :=
    abs_eq_zero.mp (le_antisymm h0 (abs_nonneg _))
  have h2 : ((round_to_fib ((f : ℤ) : ℚ) : ℤ) : ℚ) = ((f : ℤ) : ℚ) := sub_eq_zero.mp h1
  exact_mod_cast h2

/-- Witness for C5 at x = 100 (above the ladder maximum) and the ladder
member 8. -/
theorem round_to_fib_total_min_witness :
    round_to_fib 100 ∈ FIB ∧
    |((round_to_fib 100 : ℤ) : ℚ) - 100| ≤ |((40 : ℤ) : ℚ) - 100| ∧
    round_to_fib ((8 : ℤ) : ℚ) = 8 :=
  ⟨(round_to_fib_total_min 100).1,
   (round_to_fib_total_min 100).2.1 40 (by decide),
   (round_to_fib_total_min 100).2.2 8 (by decide)⟩

/-- Claim C4: whenever a ladder member is at the same distance from x as
the result, the result is the smaller one (the min scan keeps the first,
hence smallest, minimizer of the ascending ladder); in particular
round_to_fib 4 = 3. -/
theorem round_to_fib_tie_break :
    (∀ x : ℚ, ∀ f ∈ FIB, |((round_to_fib x : ℤ) : ℚ) - x| = |((f : ℤ) : ℚ) - x| →
      round_to_fib x ≤ f) ∧
    round_to_fib 4 = 3 := by
  constructor
  · intro x f hf hk
    rw [round_to_fib_eq]
    refine pyMinAux_first (fun g => pyAbs ((g : ℚ) - x)) [2, 3, 5, 8, 13, 21, 40] 1
      (by decide) f hf ?_
    show pyAbs ((f : ℚ) - x) =
      pyAbs (((pyMinAux (fun g => pyAbs ((g : ℚ) - x)) 1 [2, 3, 5, 8, 13, 21, 40] : ℤ) : ℚ) - x)
    rw [pyAbs_eq_abs, pyAbs_eq_abs, ← round_to_fib_eq x]
    exact hk.symm
  · exact of_decide_eq_true (by with_unfolding_all rfl)

/-- Witness for C4 at the tie x = 4 between ladder members 3 and 5. -/
theorem round_to_fib_tie_break_witness :
    round_to_fib 4 ≤ 5 ∧ round_to_fib 4 = 3 :=
  ⟨round_to_fib_tie_break.1 4 5 (by decide)
     (of_decide_eq_true (by with_unfolding_all rfl)),
   round_to_fib_tie_break.2⟩

/-- Claim C6: get_complexity returns Low for points at most 3, Medium for
points in (3, 8], and High for points above 8, totally over ℤ. -/
theorem get_complexity_thresholds (sp : ℤ) :
    (sp ≤ 3 → get_complexity sp = "Low") ∧
    (3 < sp ∧ sp ≤ 8 → get_complexity sp = "Medium") ∧
    (8 < sp → get_complexity sp = "High") := by
  refine ⟨fun h => ?_, fun h => ?_, fun h => ?_⟩
  · rw [get_complexity, if_pos h]
  · rw [get_complexity, if_neg (by omega), if_pos h.2]
  · rw [get_complexity, if_neg (by omega), if_neg (by omega)]

/-- Witness for C6 at the boundary points 3, 4, 8 and 9. -/
theorem get_complexity_thresholds_witness :
    get_complexity 3 = "Low" ∧ get_complexity 4 = "Medium" ∧
    get_complexity 8 = "Medium" ∧ get_complexity 9 = "High" :=
  ⟨(get_complexity_thresholds 3).1 (by decide),
   (get_complexity_thresholds 4).2.1 (by decide),
   (get_complexity_thresholds 8).2.1 (by decide),
   (get_complexity_thresholds 9).2.2 (by decide)⟩

/-- The claim C8 formula for the sprint duration:
max(1, ceil((points / velocity) * 2)). -/
def sprint_weeks_spec (sp velocity : ℤ) : ℤ :=
  max 1 (Int.ceil (((sp : ℚ) / (velocity : ℚ)) * 2))

/-- Claim C8: for positive velocity, sprint_weeks equals the claim formula
max(1, ceil((points / velocity) * 2)); that value is pinned down as the
least week count w with 1 ≤ w whose capacity w * velocity covers
2 * points. -/
theorem sprint_weeks_formula (sp v : ℤ) (hv : 0 < v) :
    sprint_weeks sp v = some (sprint_weeks_spec sp v) ∧
    1 ≤ sprint_weeks_spec sp v ∧
    2 * sp ≤ sprint_weeks_spec sp v * v ∧
    ∀ u : ℤ, 1 ≤ u → 2 * sp ≤ u * v → sprint_weeks_spec sp v ≤ u := by
  have hv0 : v ≠ 0 := hv.ne'
  have hvQ : (0 : ℚ) < (v : ℚ) := by exact_mod_cast hv
  have heq : ((sp : ℚ) / (v : ℚ)) * 2 = (2 * (sp : ℚ)) / (v : ℚ) := by ring
  refine ⟨by rw [sprint_weeks, if_neg hv0]; rfl, le_max_left _ _, ?_, ?_⟩
  · rw [sprint_weeks_spec, heq]
    have h1 := Int.le_ceil ((2 * (sp : ℚ)) / (v : ℚ))
    rw [div_le_iff₀ hvQ] at h1
    have h2 : (2 * sp : ℤ) ≤ Int.ceil ((2 * (sp : ℚ)) / (v : ℚ)) * v := by exact_mod_cast h1
    exact le_trans h2 (mul_le_mul_of_nonneg_right (le_max_right _ _) (le_of_lt hv))
  · intro u hu1 hu2
    rw [sprint_weeks_spec, heq]
    refine max_le hu1 (Int.ceil_le.mpr ?_)
    rw [div_le_iff₀ hvQ]
    exact_mod_cast hu2

/-- Witness for C8 at points 13, velocity 5 (the formula value is 6 and 6
two-week half-sprints suffice). -/
theorem sprint_weeks_formula_witness :
    sprint_weeks 13 5 = some (sprint_weeks_spec 13 5) ∧ sprint_weeks_spec 13 5 ≤ 6 :=
  ⟨(sprint_weeks_formula 13 5 (by decide)).1,
   (sprint_weeks_formula 13 5 (by decide)).2.2.2 6 (by decide) (by decide)⟩

/-- Counterexample to claim C2 as stated: at ratio exactly 1 (points 20,
velocity 20) sprint_risk reports the medium-risk pair, not low risk, and
at ratio exactly 1.5 (points 30, velocity 20) it reports high risk, not
medium risk. -/
theorem sprint_risk_claim_counterexample :
    sprint_risk 20 20 = some medium_risk ∧ medium_risk ≠ low_risk ∧
    sprint_risk 30 20 = some high_risk ∧ high_risk ≠ medium_risk := by
  refine ⟨?_, by decide, ?_, by decide⟩
  · rw [sprint_risk]
    norm_num
  · rw [sprint_risk]
    norm_num

/-- Claim C2 amended to the thresholds the code uses: with
ratio = points / velocity, the classification is low risk when
ratio ≤ 0.75, medium risk when 0.75 < ratio ≤ 1, and high risk when
ratio > 1; both boundaries are inclusive on the lower classification. -/
theorem sprint_risk_thresholds (sp v : ℤ) (hv : 0 < v) :
    ((sp : ℚ) / (v : ℚ) ≤ 3/4 → sprint_risk sp v = some low_risk) ∧
    (3/4 < (sp : ℚ) / (v : ℚ) ∧ (sp : ℚ) / (v : ℚ) ≤ 1 →
      sprint_risk sp v = some medium_risk) ∧
    (1 < (sp : ℚ) / (v : ℚ) → sprint_risk sp v = some high_risk) := by
  have hv0 : v ≠ 0 := hv.ne'
  refine ⟨fun h => ?_, fun h => ?_, fun h => ?_⟩
  · rw [sprint_risk, if_neg hv0, if_neg (not_lt.mpr (le_trans h (by norm_num))),
      if_neg (not_lt.mpr h)]
  · rw [sprint_risk, if_neg hv0, if_neg (not_lt.mpr h.2), if_pos h.1]
  · rw [sprint_risk, if_neg hv0, if_pos h]

/-- Witness for C2 (amended) at ratios 0.75, 0.8 and 1.5. -/
theorem sprint_risk_thresholds_witness :
    sprint_risk 15 20 = some low_risk ∧ sprint_risk 16 20 = some medium_risk ∧
    sprint_risk 30 20 = some high_risk :=
  ⟨(sprint_risk_thresholds 15 20 (by decide)).1
      (of_decide_eq_true (by with_unfolding_all rfl)),
   (sprint_risk_thresholds 16 20 (by decide)).2.1
      ⟨of_decide_eq_true (by with_unfolding_all rfl),
       of_decide_eq_true (by with_unfolding_all rfl)⟩,
   (sprint_risk_thresholds 30 20 (by decide)).2.2
      (of_decide_eq_true (by with_unfolding_all rfl))⟩

/-- Counterexample to claim C9 as stated: a negative velocity is not
rejected with a validation error before the division: at points 8 and
velocity -5 the division is performed and normal results are returned. -/
theorem velocity_claim_counterexample :
    sprint_weeks 8 (-5) = some 1 ∧ sprint_risk 8 (-5) = some low_risk := by
  constructor
  · exact of_decide_eq_true (by with_unfolding_all rfl)
  · rw [sprint_risk]
    norm_num

/-- Claim C9 amended: the code performs no velocity validation: zero
velocity reaches the division and raises there (modelled as none), and a
negative velocity is accepted, flowing through the division to a normal
result (1 week, low risk, for nonnegative points). -/
theorem velocity_zero_negative_behavior (sp : ℤ) (hsp : 0 ≤ sp) :
    sprint_weeks sp 0 = none ∧ sprint_risk sp 0 = none ∧
    ∀ v : ℤ, v < 0 → sprint_weeks sp v = some 1 ∧ sprint_risk sp v = some low_risk := by
  refine ⟨by rw [sprint_weeks]; simp, by rw [sprint_risk]; simp, ?_⟩
  intro v hv
  have hv0 : v ≠ 0 := ne_of_lt hv
  have h1 : (0 : ℚ) ≤ (sp : ℚ) := by exact_mod_cast hsp
  have h2 : (v : ℚ) ≤ 0 := by exact_mod_cast hv.le
  have hr : (sp : ℚ) / (v : ℚ) ≤ 0 := div_nonpos_of_nonneg_of_nonpos h1 h2
  constructor
  · rw [sprint_weeks, if_neg hv0]
    have hc : Int.ceil (((sp : ℚ) / (v : ℚ)) * 2) ≤ 0 := by
      refine Int.ceil_le.mpr ?_
      push_cast
      linarith
    rw [max_eq_left (by omega)]
  · rw [sprint_risk, if_neg hv0, if_neg (not_lt.mpr (le_trans hr (by norm_num))),
      if_neg (not_lt.mpr (le_trans hr (by norm_num)))]

/-- Witness for C9 (amended) at points 8, velocities 0 and -5. -/
theorem velocity_zero_negative_behavior_witness :
    sprint_weeks 8 0 = none ∧ sprint_weeks 8 (-5) = some 1 ∧
    sprint_risk 8 (-5) = some low_risk :=
  ⟨(velocity_zero_negative_behavior 8 (by decide)).1,
   ((velocity_zero_negative_behavior 8 (by decide)).2.2 (-5) (by decide)).1,
   ((velocity_zero_negative_behavior 8 (by decide)).2.2 (-5) (by decide)).2⟩

/-- Claim C1: with no votes the AI estimate is kept and the team fields
are null; otherwise the mean of the vote values is re-rounded to the
ladder and the AI estimate is kept exactly when that team_rounded value is
within 2 points of it, the team value winning otherwise. -/
theorem finalize_by_team_votes_consensus (ai : ℤ) (tv : List (String × ℤ)) :
    (tv = [] →
      (finalize_by_team_votes ai tv).final_story_points = ai ∧
      (finalize_by_team_votes ai tv).team_avg = none ∧
      (finalize_by_team_votes ai tv).team_rounded = none) ∧
    (tv ≠ [] →
      (finalize_by_team_votes ai tv).team_rounded =
        some (round_to_fib (mean (tv.map Prod.snd))) ∧
      (|round_to_fib (mean (tv.map Prod.snd)) - ai| ≤ 2 →
        (finalize_by_team_votes ai tv).final_story_points = ai) ∧
      (2 < |round_to_fib (mean (tv.map Prod.snd)) - ai| →
        (finalize_by_team_votes ai tv).final_story_points =
          round_to_fib (mean (tv.map Prod.snd)))) := by
  constructor
  · rintro rfl
    exact ⟨rfl, rfl, rfl⟩
  · intro hne
    by_cases habs : pyAbsZ (round_to_fib (mean (tv.map Prod.snd)) - ai) ≤ 2
    · have habs2 : |round_to_fib (mean (tv.map Prod.snd)) - ai| ≤ 2 := by
        rw [← pyAbsZ_eq_abs]; exact habs
      refine ⟨?_, fun _ => ?_, fun h2 => absurd h2 (not_lt.mpr habs2)⟩
      · simp [finalize_by_team_votes, List.length_eq_zero, hne, habs]
      · simp [finalize_by_team_votes, List.length_eq_zero, hne, habs]
    · have habs2 : ¬(|round_to_fib (mean (tv.map Prod.snd)) - ai| ≤ 2) := by
        rw [← pyAbsZ_eq_abs]; exact habs
      refine ⟨?_, fun h => absurd h habs2, fun _ => ?_⟩
      · simp [finalize_by_team_votes, List.length_eq_zero, hne, habs]
      · simp [finalize_by_team_votes, List.length_eq_zero, hne, habs]

/-- Witness for C1 on an empty vote set, the close votes FE 8 / BE 9
against an AI estimate of 8, and the far votes FE 21 / BE 21 against 5. -/
theorem finalize_by_team_votes_consensus_witness :
    (finalize_by_team_votes 8 []).final_story_points = 8 ∧
    (finalize_by_team_votes 8 []).team_avg = none ∧
    (finalize_by_team_votes 8 [("FE", 8), ("BE", 9)]).final_story_points = 8 ∧
    (finalize_by_team_votes 5 [("FE", 21), ("BE", 21)]).final_story_points = 21 :=
  ⟨((finalize_by_team_votes_consensus 8 []).1 rfl).1,
   ((finalize_by_team_votes_consensus 8 []).1 rfl).2.1,
   ((finalize_by_team_votes_consensus 8 [("FE", 8), ("BE", 9)]).2 (by decide)).2.1
     (of_decide_eq_true (by with_unfolding_all rfl)),
   (((finalize_by_team_votes_consensus 5 [("FE", 21), ("BE", 21)]).2 (by decide)).2.2
     (of_decide_eq_true (by with_unfolding_all rfl))).trans
     (of_decide_eq_true (by with_unfolding_all rfl))⟩

/-- Counterexample to claim C3 as stated: the segment "BE" has no colon,
yet the parse does not fail as a single unit: the bad segment is silently
dropped and the well-formed entry FE: 8 is kept. -/
theorem parse_votes_claim_counterexample :
    parse_votes "FE:8,BE" = some [("FE", 8)] ∧ parse_votes "FE:8,BE" ≠ none := by
  exact ⟨by decide, by decide⟩

/-- Claim C3 amended: splitting is on every comma and then every colon; a
segment without a colon is silently skipped with no error; a segment with
a colon whose split is not exactly two fields or whose points value is not
an integer makes the whole parse fail, discarding the entire vote set; the
well-formed string FE: 8, BE: 13, QA: 5 round-trips exactly. -/
theorem parse_votes_behavior :
    (∀ acc part rest, part.contains ':' = false →
      parse_votes_segments acc (part :: rest) = parse_votes_segments acc rest) ∧
    parse_votes "FE:8,BE:13,QA:5" = some [("FE", 8), ("BE", 13), ("QA", 5)] ∧
    parse_votes "FE:8,BE:x,QA:5" = none ∧
    parse_votes "FE:8,BE" = some [("FE", 8)] := by
  refine ⟨?_, by decide, by decide, by decide⟩
  intro acc part rest h
  have h2 : ¬(part.contains ':' = true) := by
    intro hc
    rw [h] at hc
    exact Bool.false_ne_true hc
  simp only [parse_votes_segments, if_neg h2]

/-- Witness for C3 (amended): the colon-free segment "BE" is skipped. -/
theorem parse_votes_behavior_witness :
    parse_votes_segments [] ["BE".toList] = parse_votes_segments [] [] ∧
    parse_votes "FE:8,BE:13,QA:5" = some [("FE", 8), ("BE", 13), ("QA", 5)] :=
  ⟨parse_votes_behavior.1 [] "BE".toList [] (by decide), parse_votes_behavior.2.1⟩

/-- The claim C7 reading of the tagger, following the spec text: test the
fixed keyword sets in priority order payment, auth, analytics over the
lower-cased text; the first set with a matching keyword wins; no match
yields default. -/
def tag_category_spec (text : String) : String :=
  match [("payment", payment_keywords), ("auth", auth_keywords),
         ("analytics", analytics_keywords)].find?
          (fun p => p.2.any (fun k => strContains (pyLower text) k)) with
  | some p => p.1
  | none => "default"

/-- Claim C7: keyword_category lower-cases the input and tests the fixed
keyword sets by substring membership in priority order payment, auth,
analytics with first match winning and default as fallback; a text with
both a payment and a login keyword is tagged payment, and a text matching
no keyword set is tagged default. -/
theorem keyword_category_priority :
    (∀ s : String, keyword_category s = tag_category_spec s) ∧
    keyword_category "I want to pay via UPI and also login" = "payment" ∧
    keyword_category "Simple UI tweak" = "default" := by
  refine ⟨fun s => ?_, by decide, by decide⟩
  cases h1 : payment_keywords.any (fun k => strContains (pyLower s) k) with
  | true => simp [keyword_category, tag_category_spec, List.find?, h1]
  | false =>
    cases h2 : auth_keywords.any (fun k => strContains (pyLower s) k) with
    | true => simp [keyword_category, tag_category_spec, List.find?, h1, h2]
    | false =>
      cases h3 : analytics_keywords.any (fun k => strContains (pyLower s) k) with
      | true => simp [keyword_category, tag_category_spec, List.find?, h1, h2, h3]
      | false => simp [keyword_category, tag_category_spec, List.find?, h1, h2, h3]

/-- Observation of the capacity_used field of an estimation result, 0 when
the call failed. -/
def capacity_used_of (o : Option EstimationResult) : ℚ :=
  match o with
  | none => 0
  | some res => res.capacity_used

theorem sprint_risk_some (sp v : ℤ) (hv0 : v ≠ 0) :
    sprint_risk sp v = some (if 1 < (sp : ℚ) / (v : ℚ) then high_risk
      else if 3/4 < (sp : ℚ) / (v : ℚ) then medium_risk else low_risk) := by
  rw [sprint_risk, if_neg hv0]
  split_ifs <;> rfl

/-- Claim C10: for any raw prediction and text and any positive velocity,
predict_and_explain succeeds and its capacity_used field is at most 100
(the capacity percentage is clamped by min(., 100)). -/
theorem capacity_used_le_100 (raw : ℚ) (text : String) (v : ℤ) (hv : 0 < v) :
    (predict_and_explain raw text v).isSome = true ∧
    capacity_used_of (predict_and_explain raw text v) ≤ 100 := by
  have hv0 : v ≠ 0 := hv.ne'
  have hw : sprint_weeks (round_to_fib raw) v =
      some (max 1 (Int.ceil ((((round_to_fib raw : ℤ) : ℚ) / (v : ℚ)) * 2))) := by
    rw [sprint_weeks, if_neg hv0]
  simp only [predict_and_explain]
  rw [hw, sprint_risk_some _ _ hv0]
  exact ⟨rfl, min_le_right _ _⟩

/-- Witness for C10 at raw prediction 30 (rounded to 21), text "pay" and
velocity 5, where the unclamped percentage would be 420. -/
theorem capacity_used_le_100_witness :
    (predict_and_explain 30 "pay" 5).isSome = true ∧
    capacity_used_of (predict_and_explain 30 "pay" 5) ≤ 100 :=
  capacity_used_le_100 30 "pay" 5 (by decide)
